import Mathlib

/-!
Verification development for the datagram rate-limiting receive pipeline
(g3's `LimitedUdpRecv` in g3-io-ext/src/udp/recv.rs, the connected-endpoint
adapter in g3proxy direct_fixed/udp_connect/recv.rs, and the window
accounting state `DatagramLimitInfo`).

The async poll functions are shallowly embedded as pure state transformers:
each poll takes the elapsed-milliseconds value, the caller's buffer length(s),
the response the inner endpoint would give if invoked, and whether the armed
sleep timer polls ready; it returns the poll result, the successor limiter
state, and an explicit effects record (endpoint invocations, slots passed,
timer resets and polls, and the increments sent to the stats sink).
Machine integers are Nat with explicit reduction mod 2^64 where the source
performs u64 casts or u64 arithmetic.
-/

namespace G3

/-- 2^64, the modulus of Rust's u64 arithmetic. -/
def U64 : Nat := 2 ^ 64

/-- Abstract kernel I/O error (io::Error), identified by a code. -/
structure IoError where
  code : Nat
deriving DecidableEq

/-- A socket address (IpAddr + port), with the ip abstracted to a Nat.
The value 0 stands for Ipv4Addr::UNSPECIFIED (0.0.0.0). -/
structure SocketAddr where
  ip : Nat
  port : Nat
deriving DecidableEq

/-- The placeholder address 0.0.0.0:0 used for synthetic delay completions. -/
def SocketAddr.unspecified : SocketAddr := ⟨0, 0⟩

/-- Poll<io::Result<α>> flattened: Ready(Ok v), Ready(Err e), or Pending. -/
inductive PollResult (α : Type) where
  | ok (v : α)
  | err (e : IoError)
  | pending
deriving DecidableEq

/-- The admission decision of the window accounting state. -/
inductive DatagramLimitResult where
  | Advance (n : Nat)
  | DelayFor (ms : Nat)
deriving DecidableEq

/-- The window accounting state (crate::limit::DatagramLimitInfo).
Field names follow the spec's data model: the window lasts
1 <<< shift_bits ms, a zero cap leaves that dimension unconstrained,
and the running counters are per current window. -/
structure DatagramLimitInfo where
  shift_bits : Nat
  max_packets : Nat
  max_bytes : Nat
  window_index : Nat
  packets_in_window : Nat
  bytes_in_window : Nat
deriving DecidableEq

/-- Modelled from the spec: DatagramLimitInfo::new (crate::limit is not part
of the provided sources); fresh state with zero counters in window 0. -/
def DatagramLimitInfo.new (shift_millis max_packets max_bytes : Nat) : DatagramLimitInfo :=
  ⟨shift_millis, max_packets, max_bytes, 0, 0, 0⟩

/-- Modelled from the spec: DatagramLimitInfo::is_set; limiting is active
iff shift_bits is nonzero. -/
def DatagramLimitInfo.is_set (l : DatagramLimitInfo) : Bool :=
  l.shift_bits != 0

/-- Modelled from the spec: the window-rotation step of the admission check.
Derive w = elapsed_ms >>> shift_bits; if w differs from window_index, advance
to w and zero both running counters. -/
def DatagramLimitInfo.rotate (l : DatagramLimitInfo) (dur_millis : Nat) : DatagramLimitInfo :=
  let w := dur_millis >>> l.shift_bits
  if w = l.window_index then l
  else { l with window_index := w, packets_in_window := 0, bytes_in_window := 0 }

/-- Modelled from the spec: the delay until the next window opens,
((window_index + 1) <<< shift_bits) - elapsed_ms, for a rotated state. -/
def DatagramLimitInfo.delayUntilNext (l : DatagramLimitInfo) (dur_millis : Nat) : Nat :=
  ((l.window_index + 1) <<< l.shift_bits) - dur_millis

/-- Modelled from the spec: DatagramLimitInfo::check_packet. After rotation,
Advance iff packets+1 fits the packet cap and bytes+buf_len fits the byte cap
(a zero cap is unconstrained); otherwise DelayFor the ms until the next
window. -/
def DatagramLimitInfo.check_packet (l : DatagramLimitInfo) (dur_millis buf_len : Nat) :
    DatagramLimitInfo × DatagramLimitResult :=
  if ((l.rotate dur_millis).max_packets = 0 ∨
        (l.rotate dur_millis).packets_in_window + 1 ≤ (l.rotate dur_millis).max_packets) ∧
     ((l.rotate dur_millis).max_bytes = 0 ∨
        (l.rotate dur_millis).bytes_in_window + buf_len ≤ (l.rotate dur_millis).max_bytes)
  then (l.rotate dur_millis, DatagramLimitResult.Advance 1)
  else (l.rotate dur_millis,
        DatagramLimitResult.DelayFor ((l.rotate dur_millis).delayUntilNext dur_millis))

/-- Modelled from the spec: the walk of the batch admission check. Scan the
declared buffer lengths in order and count how many consecutive packets can
be admitted without either cap being exceeded (zero caps unconstrained). -/
def batchAdmit (max_p max_b : Nat) : Nat → Nat → List Nat → Nat
  | _, _, [] => 0
  | cur_p, cur_b, len :: rest =>
    if (max_p = 0 ∨ cur_p + 1 ≤ max_p) ∧ (max_b = 0 ∨ cur_b + len ≤ max_b) then
      (batchAdmit max_p max_b (cur_p + 1) (cur_b + len) rest) + 1
    else 0

/-- Modelled from the spec: DatagramLimitInfo::check_packets. After rotation,
walk the buffer array; Advance(n) for the longest admissible prefix n > 0,
otherwise DelayFor the ms until the next window. -/
def DatagramLimitInfo.check_packets (l : DatagramLimitInfo) (dur_millis : Nat)
    (bufs : List Nat) : DatagramLimitInfo × DatagramLimitResult :=
  if 0 < batchAdmit (l.rotate dur_millis).max_packets (l.rotate dur_millis).max_bytes
        (l.rotate dur_millis).packets_in_window (l.rotate dur_millis).bytes_in_window bufs
  then (l.rotate dur_millis,
        DatagramLimitResult.Advance
          (batchAdmit (l.rotate dur_millis).max_packets (l.rotate dur_millis).max_bytes
            (l.rotate dur_millis).packets_in_window (l.rotate dur_millis).bytes_in_window bufs))
  else (l.rotate dur_millis,
        DatagramLimitResult.DelayFor ((l.rotate dur_millis).delayUntilNext dur_millis))

/-- Modelled from the spec: DatagramLimitInfo::set_advance; post-receive
accounting adds the received packet count and byte total to the window. -/
def DatagramLimitInfo.set_advance (l : DatagramLimitInfo) (packets size : Nat) :
    DatagramLimitInfo :=
  { l with packets_in_window := l.packets_in_window + packets,
           bytes_in_window := l.bytes_in_window + size }

/-- The stats sink's counters (ArcLimitedRecvStats observed as two counters). -/
structure LimitedRecvStats where
  packets : Nat
  bytes : Nat
deriving DecidableEq

/-- add_recv_packets(p) together with add_recv_bytes(b) applied to a sink. -/
def LimitedRecvStats.add (st : LimitedRecvStats) (p b : Nat) : LimitedRecvStats :=
  ⟨st.packets + p, st.bytes + b⟩

/-- LimitedUdpRecv state: the armed sleep deadline (ms since `started`), the
window accounting state, and the identity of the currently bound stats sink
(the Arc is modelled as an index into an external sink store). The wrapped
endpoint is not state here: each poll takes the endpoint's response as an
explicit argument. -/
structure LimitedUdpRecv where
  delay_deadline : Nat
  limit : DatagramLimitInfo
  statsId : Nat
deriving DecidableEq

/-- LimitedUdpRecv::new: sleep(0ms) armed, fresh limit state, given sink. -/
def LimitedUdpRecv.new (shift_millis max_packets max_bytes statsId : Nat) : LimitedUdpRecv :=
  ⟨0, DatagramLimitInfo.new shift_millis max_packets max_bytes, statsId⟩

/-- LimitedUdpRecv::reset_stats: replace the bound stats sink. -/
def LimitedUdpRecv.reset_stats (s : LimitedUdpRecv) (statsId : Nat) : LimitedUdpRecv :=
  { s with statsId := statsId }

/-- The observable effects of one poll call: how many times the inner
endpoint was invoked, how many leading buf/header slots were passed to a
batch invocation, the deadline the sleep timer was reset to (ms since
started), how many times the timer was polled, and the packet/byte
increments sent to the bound stats sink. -/
structure RecvEffects where
  innerCalls : Nat
  innerSlots : Option Nat
  timerReset : Option Nat
  timerPolls : Nat
  statsPackets : Nat
  statsBytes : Nat
deriving DecidableEq

/-- The outcome of one poll call: result, successor state, effects. -/
structure RecvOut (α : Type) where
  result : PollResult α
  state : LimitedUdpRecv
  fx : RecvEffects
deriving DecidableEq

/-- LimitedUdpRecv::poll_recv_from (recv.rs lines 99-129). `dur_millis` is
the u64 elapsed value of line 105, `inner` is what
self.inner.poll_recv_from would return, `timerReady` is whether the reset
sleep polls Ready. -/
def LimitedUdpRecv.poll_recv_from (s : LimitedUdpRecv) (dur_millis buf_len : Nat)
    (inner : PollResult (Nat × SocketAddr)) (timerReady : Bool) :
    RecvOut (Nat × SocketAddr) :=
  if s.limit.is_set then
    match s.limit.check_packet dur_millis buf_len with
    | (l, DatagramLimitResult.Advance _) =>
      match inner with
      | PollResult.pending =>
          ⟨PollResult.pending, { s with limit := l }, ⟨1, none, none, 0, 0, 0⟩⟩
      | PollResult.err e =>
          ⟨PollResult.err e, { s with limit := l }, ⟨1, none, none, 0, 0, 0⟩⟩
      | PollResult.ok (nr, addr) =>
          ⟨PollResult.ok (nr, addr), { s with limit := l.set_advance 1 nr },
           ⟨1, none, none, 0, 1, nr⟩⟩
    | (l, DatagramLimitResult.DelayFor ms) =>
      let deadline := (dur_millis + ms) % U64
      let s' := { s with limit := l, delay_deadline := deadline }
      if timerReady then
        ⟨PollResult.ok (0, SocketAddr.unspecified), s', ⟨0, none, some deadline, 1, 0, 0⟩⟩
      else
        ⟨PollResult.pending, s', ⟨0, none, some deadline, 1, 0, 0⟩⟩
  else
    match inner with
    | PollResult.pending => ⟨PollResult.pending, s, ⟨1, none, none, 0, 0, 0⟩⟩
    | PollResult.err e => ⟨PollResult.err e, s, ⟨1, none, none, 0, 0, 0⟩⟩
    | PollResult.ok (nr, addr) =>
        ⟨PollResult.ok (nr, addr), s, ⟨1, none, none, 0, 1, nr⟩⟩

/-- LimitedUdpRecv::poll_recv (recv.rs lines 131-155); same shape as
poll_recv_from without the source address. -/
def LimitedUdpRecv.poll_recv (s : LimitedUdpRecv) (dur_millis buf_len : Nat)
    (inner : PollResult Nat) (timerReady : Bool) : RecvOut Nat :=
  if s.limit.is_set then
    match s.limit.check_packet dur_millis buf_len with
    | (l, DatagramLimitResult.Advance _) =>
      match inner with
      | PollResult.pending =>
          ⟨PollResult.pending, { s with limit := l }, ⟨1, none, none, 0, 0, 0⟩⟩
      | PollResult.err e =>
          ⟨PollResult.err e, { s with limit := l }, ⟨1, none, none, 0, 0, 0⟩⟩
      | PollResult.ok nr =>
          ⟨PollResult.ok nr, { s with limit := l.set_advance 1 nr },
           ⟨1, none, none, 0, 1, nr⟩⟩
    | (l, DatagramLimitResult.DelayFor ms) =>
      let deadline := (dur_millis + ms) % U64
      let s' := { s with limit := l, delay_deadline := deadline }
      if timerReady then
        ⟨PollResult.ok 0, s', ⟨0, none, some deadline, 1, 0, 0⟩⟩
      else
        ⟨PollResult.pending, s', ⟨0, none, some deadline, 1, 0, 0⟩⟩
  else
    match inner with
    | PollResult.pending => ⟨PollResult.pending, s, ⟨1, none, none, 0, 0, 0⟩⟩
    | PollResult.err e => ⟨PollResult.err e, s, ⟨1, none, none, 0, 0, 0⟩⟩
    | PollResult.ok nr => ⟨PollResult.ok nr, s, ⟨1, none, none, 0, 1, nr⟩⟩

/-- LimitedUdpRecv::poll_batch_recvmsg (recv.rs lines 164-199). `bufs` is
the list of declared buffer lengths; `inner` returns the list of filled
header lengths (its length is the kernel's count); in the limited Advance(n)
branch only the first n buf/header slots are passed to the inner endpoint,
and afterwards the counters and stats advance by the kernel's count and the
sum of the first count header lengths. -/
def LimitedUdpRecv.poll_batch_recvmsg (s : LimitedUdpRecv) (dur_millis : Nat)
    (bufs : List Nat) (inner : PollResult (List Nat)) (timerReady : Bool) : RecvOut Nat :=
  if s.limit.is_set then
    match s.limit.check_packets dur_millis bufs with
    | (l, DatagramLimitResult.Advance n) =>
      match inner with
      | PollResult.pending =>
          ⟨PollResult.pending, { s with limit := l }, ⟨1, some n, none, 0, 0, 0⟩⟩
      | PollResult.err e =>
          ⟨PollResult.err e, { s with limit := l }, ⟨1, some n, none, 0, 0, 0⟩⟩
      | PollResult.ok lens =>
          ⟨PollResult.ok lens.length, { s with limit := l.set_advance lens.length lens.sum },
           ⟨1, some n, none, 0, lens.length, lens.sum⟩⟩
    | (l, DatagramLimitResult.DelayFor ms) =>
      let deadline := (dur_millis + ms) % U64
      let s' := { s with limit := l, delay_deadline := deadline }
      if timerReady then
        ⟨PollResult.ok 0, s', ⟨0, none, some deadline, 1, 0, 0⟩⟩
      else
        ⟨PollResult.pending, s', ⟨0, none, some deadline, 1, 0, 0⟩⟩
  else
    match inner with
    | PollResult.pending => ⟨PollResult.pending, s, ⟨1, some bufs.length, none, 0, 0, 0⟩⟩
    | PollResult.err e => ⟨PollResult.err e, s, ⟨1, some bufs.length, none, 0, 0, 0⟩⟩
    | PollResult.ok lens =>
        ⟨PollResult.ok lens.length, s, ⟨1, some bufs.length, none, 0, lens.length, lens.sum⟩⟩

/-- UdpCopyRemoteError: the adapter wraps endpoint errors in RecvFailed. -/
inductive UdpCopyRemoteError where
  | RecvFailed (e : IoError)
deriving DecidableEq

/-- Poll<Result<α, UdpCopyRemoteError>> flattened, for the adapter's results. -/
inductive CopyPollResult (α : Type) where
  | ok (v : α)
  | err (e : UdpCopyRemoteError)
  | pending
deriving DecidableEq

/-- A UdpCopyPacket slot as the adapter sees it: the offset and length it
writes after a batched receive, plus the capacity of its buffer. -/
structure UdpCopyPacket where
  offset : Nat
  length : Nat
  bufLen : Nat
deriving DecidableEq

/-- DirectUdpConnectRemoteRecv::max_hdr_len: always 0 (no prepended framing). -/
def DirectUdpConnectRemoteRecv.max_hdr_len : Nat := 0

/-- DirectUdpConnectRemoteRecv::poll_recv_packet: forward poll_recv on the
inner endpoint; on success return (0, nr); errors are wrapped in RecvFailed. -/
def DirectUdpConnectRemoteRecv.poll_recv_packet (inner : PollResult Nat) :
    CopyPollResult (Nat × Nat) :=
  match inner with
  | PollResult.pending => CopyPollResult.pending
  | PollResult.err e => CopyPollResult.err (UdpCopyRemoteError.RecvFailed e)
  | PollResult.ok nr => CopyPollResult.ok (0, nr)

/-- The slot update loop of poll_recv_packets: for each of the first count
filled slots (count = length of the received header-length list), set
offset := 0 and length := the slot's received header length; later slots are
untouched. -/
def updatePackets : List UdpCopyPacket → List Nat → List UdpCopyPacket
  | ps, [] => ps
  | [], _ => []
  | p :: ps, len :: lens => { p with offset := 0, length := len } :: updatePackets ps lens

/-- DirectUdpConnectRemoteRecv::poll_recv_packets: build one RecvMsgBuf per
packet slot and call the inner batch receive with all of them; on success
with filled header lengths `lens` write offset 0 and the received length into
the first lens.length slots and return the count; errors are wrapped in
RecvFailed and leave the slots untouched. -/
def DirectUdpConnectRemoteRecv.poll_recv_packets (packets : List UdpCopyPacket)
    (inner : PollResult (List Nat)) : CopyPollResult Nat × List UdpCopyPacket :=
  match inner with
  | PollResult.pending => (CopyPollResult.pending, packets)
  | PollResult.err e => (CopyPollResult.err (UdpCopyRemoteError.RecvFailed e), packets)
  | PollResult.ok lens => (CopyPollResult.ok lens.length, updatePackets packets lens)

/-- One driver-side operation on a limiter: one of the three receive polls
(with its elapsed time, buffer length(s), the endpoint's response and the
timer readiness), or a reset_stats rebinding the sink. -/
inductive Op where
  | recvFrom (dur_millis buf_len : Nat) (inner : PollResult (Nat × SocketAddr)) (timerReady : Bool)
  | recvOne (dur_millis buf_len : Nat) (inner : PollResult Nat) (timerReady : Bool)
  | batchRecv (dur_millis : Nat) (bufs : List Nat) (inner : PollResult (List Nat)) (timerReady : Bool)
  | resetStats (statsId : Nat)
deriving DecidableEq

/-- A limiter together with the external store of stats sinks the Arc
handles point into. -/
structure World where
  recv : LimitedUdpRecv
  sinks : List LimitedRecvStats
deriving DecidableEq

/-- Apply a packet/byte increment to the sink at index i of the store. -/
def applySink (sinks : List LimitedRecvStats) (i p b : Nat) : List LimitedRecvStats :=
  sinks.set i ((sinks.getD i ⟨0, 0⟩).add p b)

/-- Execute one operation: run the poll on the limiter and credit its stats
increments to the currently bound sink, or rebind the sink. -/
def World.step (w : World) (op : Op) : World :=
  match op with
  | Op.recvFrom dur buf inner tr =>
      let out := w.recv.poll_recv_from dur buf inner tr
      ⟨out.state, applySink w.sinks w.recv.statsId out.fx.statsPackets out.fx.statsBytes⟩
  | Op.recvOne dur buf inner tr =>
      let out := w.recv.poll_recv dur buf inner tr
      ⟨out.state, applySink w.sinks w.recv.statsId out.fx.statsPackets out.fx.statsBytes⟩
  | Op.batchRecv dur bufs inner tr =>
      let out := w.recv.poll_batch_recvmsg dur bufs inner tr
      ⟨out.state, applySink w.sinks w.recv.statsId out.fx.statsPackets out.fx.statsBytes⟩
  | Op.resetStats i => ⟨w.recv.reset_stats i, w.sinks⟩

/-- Run a sequence of operations. -/
def World.run (w : World) (ops : List Op) : World :=
  ops.foldl World.step w

/-- The elapsed-milliseconds computation of recv.rs lines 105/133/171:
started.elapsed().as_millis() yields the exact count (as u128); the
`as u64` cast reduces it mod 2^64. -/
def durMillisOf (elapsed_millis : Nat) : Nat := elapsed_millis % U64

/-- Modelled from the spec: the saturating conversion the spec describes
(clamping the elapsed count to the largest u64 value). -/
def durMillisSaturating (elapsed_millis : Nat) : Nat := min elapsed_millis (U64 - 1)

/-- A per-dimension cap constraint: a zero cap is unconstrained, otherwise
the running counter stays at or below the cap. -/
def dimOk (cur cap : Nat) : Prop := cap = 0 ∨ cur ≤ cap

/-- The window invariant of the spec: both running counters respect their
caps (zero caps unconstrained). -/
def limitInvariant (l : DatagramLimitInfo) : Prop :=
  dimOk l.packets_in_window l.max_packets ∧ dimOk l.bytes_in_window l.max_bytes

instance (cur cap : Nat) : Decidable (dimOk cur cap) := by
  unfold dimOk; infer_instance

instance (l : DatagramLimitInfo) : Decidable (limitInvariant l) := by
  unfold limitInvariant; infer_instance

/-- Successful receive with the buffer sized to the datagram, used to build
concrete runs. -/
def opOk (dur n : Nat) (addr : SocketAddr) : Op :=
  Op.recvFrom dur n (PollResult.ok (n, addr)) false

/-- The sizes of the successful receives in a mixed success/error schedule. -/
def successSizes : List (Nat ⊕ IoError) → List Nat
  | [] => []
  | Sum.inl n :: r => n :: successSizes r
  | Sum.inr _ :: r => successSizes r

/-- Interpret a mixed schedule as recv_from operations: a success of size n
is an endpoint completion (n, addr); an error entry is an endpoint failure. -/
def opsOfSchedule (addr : SocketAddr) : List (Nat ⊕ IoError) → List Op
  | [] => []
  | Sum.inl n :: r => opOk 0 n addr :: opsOfSchedule addr r
  | Sum.inr e :: r => Op.recvFrom 0 100 (PollResult.err e) false :: opsOfSchedule addr r

/-- A fixed peer address for concrete runs. -/
def addr0 : SocketAddr := ⟨3, 4⟩

/-- One successful 10-byte receive at elapsed 0 into a 50-byte buffer. -/
def recvOnce10 (s : LimitedUdpRecv) : LimitedUdpRecv :=
  (s.poll_recv_from 0 50 (PollResult.ok (10, addr0)) false).state

/-- The limiter (window 2 ms, max 10 packets, bytes unconstrained) after five
successful receives at elapsed 0: five packets accounted in window 0. -/
def c4state : LimitedUdpRecv :=
  recvOnce10 (recvOnce10 (recvOnce10 (recvOnce10 (recvOnce10 (LimitedUdpRecv.new 1 10 0 0)))))

/-- The limiter (window 2 ms, packets unconstrained, max 10 bytes) after one
successful 7-byte receive at elapsed 0: seven bytes accounted in window 0. -/
def c10state : LimitedUdpRecv :=
  ((LimitedUdpRecv.new 1 0 10 0).poll_recv_from 0 7 (PollResult.ok (7, addr0)) false).state

lemma is_set_eq_true {l : DatagramLimitInfo} (h : l.shift_bits ≠ 0) : l.is_set = true := by
  simp [DatagramLimitInfo.is_set, h]

lemma is_set_eq_false {l : DatagramLimitInfo} (h : l.shift_bits = 0) : l.is_set = false := by
  simp [DatagramLimitInfo.is_set, h]

lemma rotate_max_packets (l : DatagramLimitInfo) (dur : Nat) :
    (l.rotate dur).max_packets = l.max_packets := by
  simp only [DatagramLimitInfo.rotate]
  split <;> rfl

lemma rotate_max_bytes (l : DatagramLimitInfo) (dur : Nat) :
    (l.rotate dur).max_bytes = l.max_bytes := by
  simp only [DatagramLimitInfo.rotate]
  split <;> rfl

lemma rotate_counters (l : DatagramLimitInfo) (dur : Nat) :
    ((l.rotate dur).packets_in_window = l.packets_in_window ∧
     (l.rotate dur).bytes_in_window = l.bytes_in_window) ∨
    ((l.rotate dur).packets_in_window = 0 ∧ (l.rotate dur).bytes_in_window = 0) := by
  simp only [DatagramLimitInfo.rotate]
  split
  · exact Or.inl ⟨rfl, rfl⟩
  · exact Or.inr ⟨rfl, rfl⟩

lemma rotate_inv {l : DatagramLimitInfo} (dur : Nat) (h : limitInvariant l) :
    limitInvariant (l.rotate dur) := by
  simp only [DatagramLimitInfo.rotate]
  split
  · exact h
  · exact ⟨Or.inr (Nat.zero_le _), Or.inr (Nat.zero_le _)⟩

lemma check_packet_advance {l l' : DatagramLimitInfo} {dur buf n : Nat}
    (h : l.check_packet dur buf = (l', DatagramLimitResult.Advance n)) :
    l' = l.rotate dur ∧
    (l'.max_packets = 0 ∨ l'.packets_in_window + 1 ≤ l'.max_packets) ∧
    (l'.max_bytes = 0 ∨ l'.bytes_in_window + buf ≤ l'.max_bytes) := by
  unfold DatagramLimitInfo.check_packet at h
  split at h
  case isTrue hc =>
    obtain ⟨h1, h2⟩ := Prod.mk.injEq .. ▸ h
    subst h1
    exact ⟨rfl, hc.1, hc.2⟩
  case isFalse hc =>
    simp at h

lemma check_packet_delay {l l' : DatagramLimitInfo} {dur buf ms : Nat}
    (h : l.check_packet dur buf = (l', DatagramLimitResult.DelayFor ms)) :
    l' = l.rotate dur ∧ ms = (l.rotate dur).delayUntilNext dur := by
  unfold DatagramLimitInfo.check_packet at h
  split at h
  · simp at h
  · obtain ⟨h1, h2⟩ := Prod.mk.injEq .. ▸ h
    subst h1
    exact ⟨rfl, (DatagramLimitResult.DelayFor.injEq .. ▸ h2).symm⟩

lemma check_packets_advance {l l' : DatagramLimitInfo} {dur n : Nat} {bufs : List Nat}
    (h : l.check_packets dur bufs = (l', DatagramLimitResult.Advance n)) :
    l' = l.rotate dur ∧
    n = batchAdmit l'.max_packets l'.max_bytes l'.packets_in_window l'.bytes_in_window bufs := by
  unfold DatagramLimitInfo.check_packets at h
  split at h
  · obtain ⟨h1, h2⟩ := Prod.mk.injEq .. ▸ h
    subst h1
    exact ⟨rfl, (DatagramLimitResult.Advance.injEq .. ▸ h2).symm⟩
  · simp at h

lemma check_packets_delay {l l' : DatagramLimitInfo} {dur ms : Nat} {bufs : List Nat}
    (h : l.check_packets dur bufs = (l', DatagramLimitResult.DelayFor ms)) :
    l' = l.rotate dur ∧ ms = (l.rotate dur).delayUntilNext dur := by
  unfold DatagramLimitInfo.check_packets at h
  split at h
  · simp at h
  · obtain ⟨h1, h2⟩ := Prod.mk.injEq .. ▸ h
    subst h1
    exact ⟨rfl, (DatagramLimitResult.DelayFor.injEq .. ▸ h2).symm⟩

lemma set_advance_fields (l : DatagramLimitInfo) (p b : Nat) :
    (l.set_advance p b).packets_in_window = l.packets_in_window + p ∧
    (l.set_advance p b).bytes_in_window = l.bytes_in_window + b ∧
    (l.set_advance p b).max_packets = l.max_packets ∧
    (l.set_advance p b).max_bytes = l.max_bytes := by
  simp [DatagramLimitInfo.set_advance]

lemma advance_set_inv {l l' : DatagramLimitInfo} {dur buf nr n : Nat}
    (hch : l.check_packet dur buf = (l', DatagramLimitResult.Advance n))
    (hnr : nr ≤ buf) :
    limitInvariant (l'.set_advance 1 nr) := by
  obtain ⟨hrot, hp, hb⟩ := check_packet_advance hch
  constructor
  · simp only [DatagramLimitInfo.set_advance]
    rcases hp with h | h
    · exact Or.inl h
    · exact Or.inr h
  · simp only [DatagramLimitInfo.set_advance]
    rcases hb with h | h
    · exact Or.inl h
    · exact Or.inr (by omega)

lemma batchAdmit_le (mp mb : Nat) :
    ∀ (bufs : List Nat) (cp cb : Nat), dimOk cp mp → dimOk cb mb →
      dimOk (cp + batchAdmit mp mb cp cb bufs) mp ∧
      dimOk (cb + (bufs.take (batchAdmit mp mb cp cb bufs)).sum) mb := by
  intro bufs
  induction bufs with
  | nil =>
    intro cp cb h1 h2
    simpa [batchAdmit] using ⟨h1, h2⟩
  | cons len rest ih =>
    intro cp cb h1 h2
    unfold batchAdmit
    split
    case isTrue hc =>
      have hrec := ih (cp + 1) (cb + len) hc.1 hc.2
      constructor
      · have heq : cp + (batchAdmit mp mb (cp + 1) (cb + len) rest + 1) =
            cp + 1 + batchAdmit mp mb (cp + 1) (cb + len) rest := by omega
        rw [heq]
        exact hrec.1
      · rw [List.take_succ_cons, List.sum_cons]
        have heq : cb + (len + (rest.take (batchAdmit mp mb (cp + 1) (cb + len) rest)).sum) =
            cb + len + (rest.take (batchAdmit mp mb (cp + 1) (cb + len) rest)).sum := by omega
        rw [heq]
        exact hrec.2
    case isFalse hc =>
      simpa using ⟨h1, h2⟩

lemma take_sum_mono (l : List Nat) : ∀ {a b : Nat}, a ≤ b → (l.take a).sum ≤ (l.take b).sum := by
  induction l with
  | nil => intro a b _; simp
  | cons x xs ih =>
    intro a b hab
    cases a with
    | zero => simp
    | succ a' =>
      cases b with
      | zero => omega
      | succ b' =>
        simp only [List.take_succ_cons, List.sum_cons]
        exact Nat.add_le_add_left (ih (Nat.le_of_succ_le_succ hab)) x

lemma forall2_sum_le {xs ys : List Nat} (h : List.Forall₂ (· ≤ ·) xs ys) : xs.sum ≤ ys.sum := by
  induction h with
  | nil => simp
  | cons hxy _ ih =>
    simp only [List.sum_cons]
    exact Nat.add_le_add hxy ih

lemma batch_advance_inv {l l' : DatagramLimitInfo} {dur n : Nat} {bufs lens : List Nat}
    (hinv : limitInvariant l)
    (hch : l.check_packets dur bufs = (l', DatagramLimitResult.Advance n))
    (hlen : lens.length ≤ n)
    (hdom : List.Forall₂ (· ≤ ·) lens (bufs.take lens.length)) :
    limitInvariant (l'.set_advance lens.length lens.sum) := by
  obtain ⟨hrot, hn⟩ := check_packets_advance hch
  have hinv' : limitInvariant l' := hrot ▸ rotate_inv dur hinv
  have hbound := batchAdmit_le l'.max_packets l'.max_bytes bufs l'.packets_in_window
    l'.bytes_in_window hinv'.1 hinv'.2
  rw [← hn] at hbound
  have hsum : lens.sum ≤ (bufs.take n).sum :=
    le_trans (forall2_sum_le hdom) (take_sum_mono bufs hlen)
  constructor
  · simp only [DatagramLimitInfo.set_advance]
    rcases hbound.1 with h | h
    · exact Or.inl h
    · exact Or.inr (by omega)
  · simp only [DatagramLimitInfo.set_advance]
    rcases hbound.2 with h | h
    · exact Or.inl h
    · exact Or.inr (by omega)

/-- C1: with limiting enabled (shift_bits > 0), immediately after any
admission decision the window counters satisfy
packets_in_window ≤ max_packets and bytes_in_window ≤ max_bytes, with a zero
cap leaving that dimension unconstrained. The invariant holds of a freshly
constructed limiter and is preserved by every receive poll (single-packet and
batched, on every admission outcome and endpoint response), assuming the
endpoint never reports more bytes than fit the buffers it was handed and, for
a batch, never fills more slots than it was passed. -/
theorem window_counters_bounded :
    (∀ sh mp mb sid, limitInvariant (LimitedUdpRecv.new sh mp mb sid).limit) ∧
    (∀ (s : LimitedUdpRecv) (dur buf : Nat) (inner : PollResult (Nat × SocketAddr)) (tr : Bool),
      s.limit.shift_bits ≠ 0 → limitInvariant s.limit →
      (∀ nr addr, inner = PollResult.ok (nr, addr) → nr ≤ buf) →
      limitInvariant ((s.poll_recv_from dur buf inner tr).state.limit)) ∧
    (∀ (s : LimitedUdpRecv) (dur buf : Nat) (inner : PollResult Nat) (tr : Bool),
      s.limit.shift_bits ≠ 0 → limitInvariant s.limit →
      (∀ nr, inner = PollResult.ok nr → nr ≤ buf) →
      limitInvariant ((s.poll_recv dur buf inner tr).state.limit)) ∧
    (∀ (s : LimitedUdpRecv) (dur : Nat) (bufs : List Nat) (inner : PollResult (List Nat))
        (tr : Bool),
      s.limit.shift_bits ≠ 0 → limitInvariant s.limit →
      (∀ lens, inner = PollResult.ok lens →
        List.Forall₂ (· ≤ ·) lens (bufs.take lens.length) ∧
        ∀ l' n, s.limit.check_packets dur bufs = (l', DatagramLimitResult.Advance n) →
          lens.length ≤ n) →
      limitInvariant ((s.poll_batch_recvmsg dur bufs inner tr).state.limit)) := by
  refine ⟨?_, ?_, ?_, ?_⟩
  · intro sh mp mb sid
    exact ⟨Or.inr (Nat.zero_le _), Or.inr (Nat.zero_le _)⟩
  · intro s dur buf inner tr hsh hinv hbnd
    unfold LimitedUdpRecv.poll_recv_from
    rw [is_set_eq_true hsh, if_pos rfl]
    rcases hch : s.limit.check_packet dur buf with ⟨l', r⟩
    cases r with
    | Advance n =>
      cases inner with
      | ok v =>
        obtain ⟨nr, addr⟩ := v
        exact advance_set_inv hch (hbnd nr addr rfl)
      | err e =>
        exact (check_packet_advance hch).1 ▸ rotate_inv dur hinv
      | pending =>
        exact (check_packet_advance hch).1 ▸ rotate_inv dur hinv
    | DelayFor ms =>
      cases tr <;>
        exact (check_packet_delay hch).1 ▸ rotate_inv dur hinv
  · intro s dur buf inner tr hsh hinv hbnd
    unfold LimitedUdpRecv.poll_recv
    rw [is_set_eq_true hsh, if_pos rfl]
    rcases hch : s.limit.check_packet dur buf with ⟨l', r⟩
    cases r with
    | Advance n =>
      cases inner with
      | ok nr =>
        exact advance_set_inv hch (hbnd nr rfl)
      | err e =>
        exact (check_packet_advance hch).1 ▸ rotate_inv dur hinv
      | pending =>
        exact (check_packet_advance hch).1 ▸ rotate_inv dur hinv
    | DelayFor ms =>
      cases tr <;>
        exact (check_packet_delay hch).1 ▸ rotate_inv dur hinv
  · intro s dur bufs inner tr hsh hinv hbnd
    unfold LimitedUdpRecv.poll_batch_recvmsg
    rw [is_set_eq_true hsh, if_pos rfl]
    rcases hch : s.limit.check_packets dur bufs with ⟨l', r⟩
    cases r with
    | Advance n =>
      cases inner with
      | ok lens =>
        obtain ⟨hdom, hlen⟩ := hbnd lens rfl
        exact batch_advance_inv hinv hch (hlen l' n hch) hdom
      | err e =>
        exact (check_packets_advance hch).1 ▸ rotate_inv dur hinv
      | pending =>
        exact (check_packets_advance hch).1 ▸ rotate_inv dur hinv
    | DelayFor ms =>
      cases tr <;>
        exact (check_packets_delay hch).1 ▸ rotate_inv dur hinv

/-- C1 witness: a concrete limiter (8 ms window, 2 packets per window) with a
successful 40-byte receive into a 100-byte buffer keeps the invariant. -/
theorem window_counters_bounded_witness :
    (LimitedUdpRecv.new 3 2 0 0).limit.shift_bits ≠ 0 ∧
    limitInvariant (LimitedUdpRecv.new 3 2 0 0).limit ∧
    limitInvariant (((LimitedUdpRecv.new 3 2 0 0).poll_recv_from 0 100
      (PollResult.ok (40, addr0)) false).state.limit) :=
  ⟨by decide, by decide,
    window_counters_bounded.2.1 (LimitedUdpRecv.new 3 2 0 0) 0 100
      (PollResult.ok (40, addr0)) false (by decide) (by decide)
      (by
        intro nr addr h
        simp only [PollResult.ok.injEq, Prod.mk.injEq] at h
        omega)⟩

/-- C2: with shift_millis = 0 at construction, limiting is disabled and every
receive poll is a pure pass-through: the result is exactly the inner
endpoint's response, the limiter state is unchanged, the delay timer is
neither reset nor polled, the endpoint is invoked once (a batch call passing
all slots), and the stats sink is still fed on success. -/
theorem disabled_passthrough (s : LimitedUdpRecv) (h : s.limit.shift_bits = 0) :
    (∀ (dur buf : Nat) (inner : PollResult (Nat × SocketAddr)) (tr : Bool),
      (s.poll_recv_from dur buf inner tr).result = inner ∧
      (s.poll_recv_from dur buf inner tr).state = s ∧
      (s.poll_recv_from dur buf inner tr).fx.innerCalls = 1 ∧
      (s.poll_recv_from dur buf inner tr).fx.timerReset = none ∧
      (s.poll_recv_from dur buf inner tr).fx.timerPolls = 0 ∧
      (s.poll_recv_from dur buf inner tr).fx.statsPackets =
        (match inner with | PollResult.ok _ => 1 | _ => 0) ∧
      (s.poll_recv_from dur buf inner tr).fx.statsBytes =
        (match inner with | PollResult.ok (nr, _) => nr | _ => 0)) ∧
    (∀ (dur buf : Nat) (inner : PollResult Nat) (tr : Bool),
      (s.poll_recv dur buf inner tr).result = inner ∧
      (s.poll_recv dur buf inner tr).state = s ∧
      (s.poll_recv dur buf inner tr).fx.innerCalls = 1 ∧
      (s.poll_recv dur buf inner tr).fx.timerReset = none ∧
      (s.poll_recv dur buf inner tr).fx.timerPolls = 0 ∧
      (s.poll_recv dur buf inner tr).fx.statsPackets =
        (match inner with | PollResult.ok _ => 1 | _ => 0) ∧
      (s.poll_recv dur buf inner tr).fx.statsBytes =
        (match inner with | PollResult.ok nr => nr | _ => 0)) ∧
    (∀ (dur : Nat) (bufs : List Nat) (inner : PollResult (List Nat)) (tr : Bool),
      (s.poll_batch_recvmsg dur bufs inner tr).result =
        (match inner with
         | PollResult.ok lens => PollResult.ok lens.length
         | PollResult.err e => PollResult.err e
         | PollResult.pending => PollResult.pending) ∧
      (s.poll_batch_recvmsg dur bufs inner tr).state = s ∧
      (s.poll_batch_recvmsg dur bufs inner tr).fx.innerCalls = 1 ∧
      (s.poll_batch_recvmsg dur bufs inner tr).fx.innerSlots = some bufs.length ∧
      (s.poll_batch_recvmsg dur bufs inner tr).fx.timerReset = none ∧
      (s.poll_batch_recvmsg dur bufs inner tr).fx.timerPolls = 0 ∧
      (s.poll_batch_recvmsg dur bufs inner tr).fx.statsPackets =
        (match inner with | PollResult.ok lens => lens.length | _ => 0) ∧
      (s.poll_batch_recvmsg dur bufs inner tr).fx.statsBytes =
        (match inner with | PollResult.ok lens => lens.sum | _ => 0)) := by
  have hset := is_set_eq_false h
  refine ⟨?_, ?_, ?_⟩
  · intro dur buf inner tr
    cases inner with
    | ok v =>
      obtain ⟨nr, addr⟩ := v
      simp [LimitedUdpRecv.poll_recv_from, hset]
    | err e => simp [LimitedUdpRecv.poll_recv_from, hset]
    | pending => simp [LimitedUdpRecv.poll_recv_from, hset]
  · intro dur buf inner tr
    cases inner with
    | ok nr => simp [LimitedUdpRecv.poll_recv, hset]
    | err e => simp [LimitedUdpRecv.poll_recv, hset]
    | pending => simp [LimitedUdpRecv.poll_recv, hset]
  · intro dur bufs inner tr
    cases inner with
    | ok lens => simp [LimitedUdpRecv.poll_batch_recvmsg, hset]
    | err e => simp [LimitedUdpRecv.poll_batch_recvmsg, hset]
    | pending => simp [LimitedUdpRecv.poll_batch_recvmsg, hset]

/-- C2 witness: a disabled limiter passes a concrete 25-byte datagram through
unchanged without touching its own state. -/
theorem disabled_passthrough_witness :
    (LimitedUdpRecv.new 0 5 5 0).limit.shift_bits = 0 ∧
    ((LimitedUdpRecv.new 0 5 5 0).poll_recv_from 9 100
        (PollResult.ok (25, addr0)) false).result = PollResult.ok (25, addr0) ∧
    ((LimitedUdpRecv.new 0 5 5 0).poll_recv_from 9 100
        (PollResult.ok (25, addr0)) false).state = LimitedUdpRecv.new 0 5 5 0 :=
  ⟨rfl,
    (((disabled_passthrough (LimitedUdpRecv.new 0 5 5 0) rfl).1 9 100
      (PollResult.ok (25, addr0)) false).1),
    (((disabled_passthrough (LimitedUdpRecv.new 0 5 5 0) rfl).1 9 100
      (PollResult.ok (25, addr0)) false).2.1)⟩

/-- C3: for a batched receive whose admission check returns Advance(n), the
limiter passes exactly the first n buffer/header slots to the endpoint, and
when the endpoint returns k ≤ n filled slots (header lengths `lens`,
k = lens.length), the window counters and the stats sink advance by exactly
k packets and by the sum of the first k header lengths. -/
theorem batch_advance_reconciliation
    (s : LimitedUdpRecv) (dur : Nat) (bufs lens : List Nat) (tr : Bool)
    (l' : DatagramLimitInfo) (n : Nat)
    (hsh : s.limit.shift_bits ≠ 0)
    (hch : s.limit.check_packets dur bufs = (l', DatagramLimitResult.Advance n))
    (hk : lens.length ≤ n) :
    (s.poll_batch_recvmsg dur bufs (PollResult.ok lens) tr).fx.innerSlots = some n ∧
    (s.poll_batch_recvmsg dur bufs (PollResult.ok lens) tr).result =
      PollResult.ok lens.length ∧
    (s.poll_batch_recvmsg dur bufs (PollResult.ok lens) tr).state.limit.packets_in_window =
      l'.packets_in_window + lens.length ∧
    (s.poll_batch_recvmsg dur bufs (PollResult.ok lens) tr).state.limit.bytes_in_window =
      l'.bytes_in_window + lens.sum ∧
    (s.poll_batch_recvmsg dur bufs (PollResult.ok lens) tr).fx.statsPackets = lens.length ∧
    (s.poll_batch_recvmsg dur bufs (PollResult.ok lens) tr).fx.statsBytes = lens.sum := by
  unfold LimitedUdpRecv.poll_batch_recvmsg
  rw [is_set_eq_true hsh, if_pos rfl, hch]
  simp [DatagramLimitInfo.set_advance]

/-- C3 witness: window 16 ms with a cap of 8 packets, three 100-byte buffer
slots and an endpoint that fills two of them (10 and 20 bytes). -/
theorem batch_advance_reconciliation_witness :
    (LimitedUdpRecv.new 4 8 0 0).limit.shift_bits ≠ 0 ∧
    (LimitedUdpRecv.new 4 8 0 0).limit.check_packets 0 [100, 100, 100] =
      ((LimitedUdpRecv.new 4 8 0 0).limit, DatagramLimitResult.Advance 3) ∧
    ((LimitedUdpRecv.new 4 8 0 0).poll_batch_recvmsg 0 [100, 100, 100]
        (PollResult.ok [10, 20]) false).fx.innerSlots = some 3 ∧
    ((LimitedUdpRecv.new 4 8 0 0).poll_batch_recvmsg 0 [100, 100, 100]
        (PollResult.ok [10, 20]) false).state.limit.packets_in_window = 2 ∧
    ((LimitedUdpRecv.new 4 8 0 0).poll_batch_recvmsg 0 [100, 100, 100]
        (PollResult.ok [10, 20]) false).state.limit.bytes_in_window = 30 := by
  have hap := batch_advance_reconciliation (LimitedUdpRecv.new 4 8 0 0) 0 [100, 100, 100]
    [10, 20] false (LimitedUdpRecv.new 4 8 0 0).limit 3 (by decide) (by decide) (by decide)
  exact ⟨by decide, by decide, hap.1,
    by rw [hap.2.2.1]; decide, by rw [hap.2.2.2.1]; decide⟩

/-- C6: when the admission check returns DelayFor(ms), the limiter resets its
sleep timer to fire at started + elapsed_ms + ms (u64 arithmetic, stated here
below the wrap-around bound), polls the timer exactly once and never invokes
the endpoint; if the timer polls Ready the operation completes with 0 bytes
(and, for recv_from, the placeholder source address 0.0.0.0:0), otherwise the
operation is pending. -/
theorem delay_path_timer :
    (∀ (s : LimitedUdpRecv) (dur buf ms : Nat) (l' : DatagramLimitInfo)
        (inner : PollResult (Nat × SocketAddr)) (tr : Bool),
      s.limit.shift_bits ≠ 0 → dur + ms < U64 →
      s.limit.check_packet dur buf = (l', DatagramLimitResult.DelayFor ms) →
      (s.poll_recv_from dur buf inner tr).fx.timerReset = some (dur + ms) ∧
      (s.poll_recv_from dur buf inner tr).state.delay_deadline = dur + ms ∧
      (s.poll_recv_from dur buf inner tr).fx.timerPolls = 1 ∧
      (s.poll_recv_from dur buf inner tr).fx.innerCalls = 0 ∧
      (s.poll_recv_from dur buf inner tr).result =
        (if tr then PollResult.ok (0, SocketAddr.unspecified) else PollResult.pending)) ∧
    (∀ (s : LimitedUdpRecv) (dur buf ms : Nat) (l' : DatagramLimitInfo)
        (inner : PollResult Nat) (tr : Bool),
      s.limit.shift_bits ≠ 0 → dur + ms < U64 →
      s.limit.check_packet dur buf = (l', DatagramLimitResult.DelayFor ms) →
      (s.poll_recv dur buf inner tr).fx.timerReset = some (dur + ms) ∧
      (s.poll_recv dur buf inner tr).state.delay_deadline = dur + ms ∧
      (s.poll_recv dur buf inner tr).fx.timerPolls = 1 ∧
      (s.poll_recv dur buf inner tr).fx.innerCalls = 0 ∧
      (s.poll_recv dur buf inner tr).result =
        (if tr then PollResult.ok 0 else PollResult.pending)) ∧
    (∀ (s : LimitedUdpRecv) (dur ms : Nat) (bufs : List Nat) (l' : DatagramLimitInfo)
        (inner : PollResult (List Nat)) (tr : Bool),
      s.limit.shift_bits ≠ 0 → dur + ms < U64 →
      s.limit.check_packets dur bufs = (l', DatagramLimitResult.DelayFor ms) →
      (s.poll_batch_recvmsg dur bufs inner tr).fx.timerReset = some (dur + ms) ∧
      (s.poll_batch_recvmsg dur bufs inner tr).state.delay_deadline = dur + ms ∧
      (s.poll_batch_recvmsg dur bufs inner tr).fx.timerPolls = 1 ∧
      (s.poll_batch_recvmsg dur bufs inner tr).fx.innerCalls = 0 ∧
      (s.poll_batch_recvmsg dur bufs inner tr).result =
        (if tr then PollResult.ok 0 else PollResult.pending)) := by
  refine ⟨?_, ?_, ?_⟩
  · intro s dur buf ms l' inner tr hsh h64 hch
    unfold LimitedUdpRecv.poll_recv_from
    rw [is_set_eq_true hsh, if_pos rfl, hch]
    cases tr <;> simp [Nat.mod_eq_of_lt h64]
  · intro s dur buf ms l' inner tr hsh h64 hch
    unfold LimitedUdpRecv.poll_recv
    rw [is_set_eq_true hsh, if_pos rfl, hch]
    cases tr <;> simp [Nat.mod_eq_of_lt h64]
  · intro s dur ms bufs l' inner tr hsh h64 hch
    unfold LimitedUdpRecv.poll_batch_recvmsg
    rw [is_set_eq_true hsh, if_pos rfl, hch]
    cases tr <;> simp [Nat.mod_eq_of_lt h64]

/-- C6 witness: a limiter whose current window (8 ms, cap 2 packets) already
holds 2 packets delays a recv_from at elapsed 5 ms by 3 ms: the timer is
reset to 8 ms after start, polled once, and the poll is pending. -/
theorem delay_path_timer_witness :
    (⟨0, ⟨3, 2, 0, 0, 2, 0⟩, 0⟩ : LimitedUdpRecv).limit.check_packet 5 100 =
      (⟨3, 2, 0, 0, 2, 0⟩, DatagramLimitResult.DelayFor 3) ∧
    ((⟨0, ⟨3, 2, 0, 0, 2, 0⟩, 0⟩ : LimitedUdpRecv).poll_recv_from 5 100
        PollResult.pending false).fx.timerReset = some 8 ∧
    ((⟨0, ⟨3, 2, 0, 0, 2, 0⟩, 0⟩ : LimitedUdpRecv).poll_recv_from 5 100
        PollResult.pending false).result = PollResult.pending := by
  have hap := delay_path_timer.1 (⟨0, ⟨3, 2, 0, 0, 2, 0⟩, 0⟩ : LimitedUdpRecv) 5 100 3
    ⟨3, 2, 0, 0, 2, 0⟩ PollResult.pending false (by decide) (by decide) (by decide)
  exact ⟨by decide, hap.1, hap.2.2.2.2⟩

/-- C4 counterexample: after five admitted packets in window 0 (window
length 2 ms, cap 10 packets), an endpoint error at elapsed 2 ms crosses into
window 1: the error is surfaced unchanged, but the admission check's window
rotation has zeroed packets_in_window (5 before the call, 0 after), so the
window counters are modified by a failing call. -/
theorem error_path_counterexample :
    c4state.limit.packets_in_window = 5 ∧
    (c4state.poll_recv_from 2 50 (PollResult.err ⟨7⟩) false).result =
      PollResult.err ⟨7⟩ ∧
    (c4state.poll_recv_from 2 50 (PollResult.err ⟨7⟩) false).state.limit.packets_in_window
      ≠ c4state.limit.packets_in_window := by
  decide

/-- C4 amended: when the endpoint resolves with an I/O error, every receive
poll returns that same error unchanged, sends nothing to the stats sink, and
applies no accounting advance to the window counters; the counters are,
however, first subject to the admission check's window rotation, so after the
call each counter either equals its pre-call value or has been zeroed by
entry into a new window. -/
theorem error_path_amended :
    (∀ (s : LimitedUdpRecv) (dur buf n : Nat) (e : IoError) (tr : Bool)
        (l' : DatagramLimitInfo),
      s.limit.shift_bits ≠ 0 →
      s.limit.check_packet dur buf = (l', DatagramLimitResult.Advance n) →
      (s.poll_recv_from dur buf (PollResult.err e) tr).result = PollResult.err e ∧
      (s.poll_recv_from dur buf (PollResult.err e) tr).fx.statsPackets = 0 ∧
      (s.poll_recv_from dur buf (PollResult.err e) tr).fx.statsBytes = 0 ∧
      (s.poll_recv_from dur buf (PollResult.err e) tr).state.limit = l' ∧
      ((l'.packets_in_window = s.limit.packets_in_window ∧
        l'.bytes_in_window = s.limit.bytes_in_window) ∨
       (l'.packets_in_window = 0 ∧ l'.bytes_in_window = 0))) ∧
    (∀ (s : LimitedUdpRecv) (dur buf n : Nat) (e : IoError) (tr : Bool)
        (l' : DatagramLimitInfo),
      s.limit.shift_bits ≠ 0 →
      s.limit.check_packet dur buf = (l', DatagramLimitResult.Advance n) →
      (s.poll_recv dur buf (PollResult.err e) tr).result = PollResult.err e ∧
      (s.poll_recv dur buf (PollResult.err e) tr).fx.statsPackets = 0 ∧
      (s.poll_recv dur buf (PollResult.err e) tr).fx.statsBytes = 0 ∧
      (s.poll_recv dur buf (PollResult.err e) tr).state.limit = l' ∧
      ((l'.packets_in_window = s.limit.packets_in_window ∧
        l'.bytes_in_window = s.limit.bytes_in_window) ∨
       (l'.packets_in_window = 0 ∧ l'.bytes_in_window = 0))) ∧
    (∀ (s : LimitedUdpRecv) (dur n : Nat) (bufs : List Nat) (e : IoError) (tr : Bool)
        (l' : DatagramLimitInfo),
      s.limit.shift_bits ≠ 0 →
      s.limit.check_packets dur bufs = (l', DatagramLimitResult.Advance n) →
      (s.poll_batch_recvmsg dur bufs (PollResult.err e) tr).result = PollResult.err e ∧
      (s.poll_batch_recvmsg dur bufs (PollResult.err e) tr).fx.statsPackets = 0 ∧
      (s.poll_batch_recvmsg dur bufs (PollResult.err e) tr).fx.statsBytes = 0 ∧
      (s.poll_batch_recvmsg dur bufs (PollResult.err e) tr).state.limit = l' ∧
      ((l'.packets_in_window = s.limit.packets_in_window ∧
        l'.bytes_in_window = s.limit.bytes_in_window) ∨
       (l'.packets_in_window = 0 ∧ l'.bytes_in_window = 0))) ∧
    (∀ (s : LimitedUdpRecv) (dur buf : Nat) (e : IoError) (tr : Bool),
      s.limit.shift_bits = 0 →
      (s.poll_recv_from dur buf (PollResult.err e) tr).result = PollResult.err e ∧
      (s.poll_recv_from dur buf (PollResult.err e) tr).fx.statsPackets = 0 ∧
      (s.poll_recv_from dur buf (PollResult.err e) tr).fx.statsBytes = 0 ∧
      (s.poll_recv_from dur buf (PollResult.err e) tr).state = s) := by
  refine ⟨?_, ?_, ?_, ?_⟩
  · intro s dur buf n e tr l' hsh hch
    unfold LimitedUdpRecv.poll_recv_from
    rw [is_set_eq_true hsh, if_pos rfl, hch]
    refine ⟨rfl, rfl, rfl, rfl, ?_⟩
    rw [(check_packet_advance hch).1]
    exact rotate_counters s.limit dur
  · intro s dur buf n e tr l' hsh hch
    unfold LimitedUdpRecv.poll_recv
    rw [is_set_eq_true hsh, if_pos rfl, hch]
    refine ⟨rfl, rfl, rfl, rfl, ?_⟩
    rw [(check_packet_advance hch).1]
    exact rotate_counters s.limit dur
  · intro s dur n bufs e tr l' hsh hch
    unfold LimitedUdpRecv.poll_batch_recvmsg
    rw [is_set_eq_true hsh, if_pos rfl, hch]
    refine ⟨rfl, rfl, rfl, rfl, ?_⟩
    rw [(check_packets_advance hch).1]
    exact rotate_counters s.limit dur
  · intro s dur buf e tr hsh
    unfold LimitedUdpRecv.poll_recv_from
    rw [is_set_eq_false hsh]
    exact ⟨rfl, rfl, rfl, rfl⟩

/-- C4 amended witness: an in-window endpoint error (elapsed 0, window 0)
surfaces unchanged and leaves counters and stats untouched. -/
theorem error_path_amended_witness :
    c4state.limit.shift_bits ≠ 0 ∧
    c4state.limit.check_packet 0 50 = (c4state.limit, DatagramLimitResult.Advance 1) ∧
    (c4state.poll_recv_from 0 50 (PollResult.err ⟨7⟩) false).result = PollResult.err ⟨7⟩ ∧
    (c4state.poll_recv_from 0 50 (PollResult.err ⟨7⟩) false).state.limit = c4state.limit := by
  have hap := error_path_amended.1 c4state 0 50 1 ⟨7⟩ false c4state.limit
    (by decide) (by decide)
  exact ⟨by decide, by decide, hap.1, hap.2.2.2.1⟩

/-- C7 counterexample: the elapsed-milliseconds value of recv.rs line 105 is
started.elapsed().as_millis() cast with `as u64`, which truncates mod 2^64
rather than saturating: at an exact elapsed count of 2^64 ms the code
computes 0 while a saturating conversion yields 2^64 - 1. -/
theorem elapsed_truncates_counterexample :
    durMillisOf U64 = 0 ∧
    durMillisSaturating U64 = U64 - 1 ∧
    durMillisOf U64 ≠ durMillisSaturating U64 := by
  refine ⟨Nat.mod_self U64, ?_, ?_⟩
  · unfold durMillisSaturating
    simp [Nat.min_def]
  · unfold durMillisOf durMillisSaturating
    rw [Nat.mod_self]
    simp [Nat.min_def]
    decide

/-- C7 amended: the elapsed time used by the admission check is the
milliseconds since construction reduced mod 2^64 (a truncating u128 → u64
cast), which coincides with the true elapsed count whenever that count is
below 2^64. -/
theorem elapsed_truncation_amended :
    (∀ x, durMillisOf x = x % U64) ∧ (∀ x, x < U64 → durMillisOf x = x) :=
  ⟨fun _ => rfl, fun _ h => Nat.mod_eq_of_lt h⟩

/-- C7 amended witness: a realistic elapsed count passes through unchanged. -/
theorem elapsed_truncation_amended_witness :
    5000 < U64 ∧ durMillisOf 5000 = 5000 :=
  ⟨by decide, elapsed_truncation_amended.2 5000 (by decide)⟩

/-- C10 counterexample: a limiter (window 2 ms, byte cap 10) holding 7 bytes
in window 0 is polled at elapsed 2 ms with a 50-byte buffer: the admission
check rotates into window 1 and returns DelayFor, the endpoint is never
invoked and the stats sink is untouched, but bytes_in_window was changed
(zeroed) by the rotation — refuting that the window counters are never
updated on the DelayFor path. -/
theorem delay_frame_counterexample :
    c10state.limit.bytes_in_window = 7 ∧
    (c10state.poll_recv_from 2 50 PollResult.pending false).fx.innerCalls = 0 ∧
    (c10state.poll_recv_from 2 50 PollResult.pending false).fx.statsPackets = 0 ∧
    (c10state.poll_recv_from 2 50 PollResult.pending false).fx.statsBytes = 0 ∧
    (c10state.poll_recv_from 2 50 PollResult.pending false).fx.timerPolls = 1 ∧
    (c10state.poll_recv_from 2 50 PollResult.pending false).state.limit.bytes_in_window
      ≠ c10state.limit.bytes_in_window := by
  decide

/-- C10 amended: on the DelayFor path the endpoint is never invoked and the
stats sink is never updated, for both a synthetic ready completion and a
pending return; no accounting advance is applied to the window counters, but
the admission check's rotation may have zeroed them on entry into a new
window, so after the call each counter equals its pre-call value or zero. -/
theorem delay_frame_amended :
    (∀ (s : LimitedUdpRecv) (dur buf ms : Nat) (l' : DatagramLimitInfo)
        (inner : PollResult (Nat × SocketAddr)) (tr : Bool),
      s.limit.shift_bits ≠ 0 →
      s.limit.check_packet dur buf = (l', DatagramLimitResult.DelayFor ms) →
      (s.poll_recv_from dur buf inner tr).fx.innerCalls = 0 ∧
      (s.poll_recv_from dur buf inner tr).fx.statsPackets = 0 ∧
      (s.poll_recv_from dur buf inner tr).fx.statsBytes = 0 ∧
      (s.poll_recv_from dur buf inner tr).state.limit = l' ∧
      ((l'.packets_in_window = s.limit.packets_in_window ∧
        l'.bytes_in_window = s.limit.bytes_in_window) ∨
       (l'.packets_in_window = 0 ∧ l'.bytes_in_window = 0))) ∧
    (∀ (s : LimitedUdpRecv) (dur buf ms : Nat) (l' : DatagramLimitInfo)
        (inner : PollResult Nat) (tr : Bool),
      s.limit.shift_bits ≠ 0 →
      s.limit.check_packet dur buf = (l', DatagramLimitResult.DelayFor ms) →
      (s.poll_recv dur buf inner tr).fx.innerCalls = 0 ∧
      (s.poll_recv dur buf inner tr).fx.statsPackets = 0 ∧
      (s.poll_recv dur buf inner tr).fx.statsBytes = 0 ∧
      (s.poll_recv dur buf inner tr).state.limit = l' ∧
      ((l'.packets_in_window = s.limit.packets_in_window ∧
        l'.bytes_in_window = s.limit.bytes_in_window) ∨
       (l'.packets_in_window = 0 ∧ l'.bytes_in_window = 0))) ∧
    (∀ (s : LimitedUdpRecv) (dur ms : Nat) (bufs : List Nat) (l' : DatagramLimitInfo)
        (inner : PollResult (List Nat)) (tr : Bool),
      s.limit.shift_bits ≠ 0 →
      s.limit.check_packets dur bufs = (l', DatagramLimitResult.DelayFor ms) →
      (s.poll_batch_recvmsg dur bufs inner tr).fx.innerCalls = 0 ∧
      (s.poll_batch_recvmsg dur bufs inner tr).fx.statsPackets = 0 ∧
      (s.poll_batch_recvmsg dur bufs inner tr).fx.statsBytes = 0 ∧
      (s.poll_batch_recvmsg dur bufs inner tr).state.limit = l' ∧
      ((l'.packets_in_window = s.limit.packets_in_window ∧
        l'.bytes_in_window = s.limit.bytes_in_window) ∨
       (l'.packets_in_window = 0 ∧ l'.bytes_in_window = 0))) := by
  refine ⟨?_, ?_, ?_⟩
  · intro s dur buf ms l' inner tr hsh hch
    unfold LimitedUdpRecv.poll_recv_from
    rw [is_set_eq_true hsh, if_pos rfl, hch]
    have hrc := (check_packet_delay hch).1 ▸ rotate_counters s.limit dur
    cases tr <;> exact ⟨rfl, rfl, rfl, rfl, hrc⟩
  · intro s dur buf ms l' inner tr hsh hch
    unfold LimitedUdpRecv.poll_recv
    rw [is_set_eq_true hsh, if_pos rfl, hch]
    have hrc := (check_packet_delay hch).1 ▸ rotate_counters s.limit dur
    cases tr <;> exact ⟨rfl, rfl, rfl, rfl, hrc⟩
  · intro s dur ms bufs l' inner tr hsh hch
    unfold LimitedUdpRecv.poll_batch_recvmsg
    rw [is_set_eq_true hsh, if_pos rfl, hch]
    have hrc := (check_packets_delay hch).1 ▸ rotate_counters s.limit dur
    cases tr <;> exact ⟨rfl, rfl, rfl, rfl, hrc⟩

/-- C10 amended witness: the concrete delayed poll of the counterexample
state invokes no endpoint call and sends nothing to the stats sink. -/
theorem delay_frame_amended_witness :
    c10state.limit.shift_bits ≠ 0 ∧
    c10state.limit.check_packet 2 50 =
      (⟨1, 0, 10, 1, 0, 0⟩, DatagramLimitResult.DelayFor 2) ∧
    (c10state.poll_recv_from 2 50 PollResult.pending false).fx.innerCalls = 0 ∧
    (c10state.poll_recv_from 2 50 PollResult.pending false).state.limit =
      ⟨1, 0, 10, 1, 0, 0⟩ := by
  have hap := delay_frame_amended.1 c10state 2 50 2 ⟨1, 0, 10, 1, 0, 0⟩
    PollResult.pending false (by decide) (by decide)
  exact ⟨by decide, by decide, hap.1, hap.2.2.2.1⟩

lemma step_opOk_at (sinks : List LimitedRecvStats) (sid nn dur : Nat) :
    World.step ⟨LimitedUdpRecv.new 0 0 0 sid, sinks⟩ (opOk dur nn addr0) =
      ⟨LimitedUdpRecv.new 0 0 0 sid, applySink sinks sid 1 nn⟩ := by
  simp [World.step, opOk, LimitedUdpRecv.poll_recv_from, DatagramLimitInfo.is_set,
    DatagramLimitInfo.new, LimitedUdpRecv.new]

lemma step_opErr_at (sinks : List LimitedRecvStats) (sid dur buf : Nat) (e : IoError) :
    World.step ⟨LimitedUdpRecv.new 0 0 0 sid, sinks⟩
        (Op.recvFrom dur buf (PollResult.err e) false) =
      ⟨LimitedUdpRecv.new 0 0 0 sid, applySink sinks sid 0 0⟩ := by
  simp [World.step, LimitedUdpRecv.poll_recv_from, DatagramLimitInfo.is_set,
    DatagramLimitInfo.new, LimitedUdpRecv.new]

lemma applySink_head (A : LimitedRecvStats) (rest : List LimitedRecvStats) (p b : Nat) :
    applySink (A :: rest) 0 p b = A.add p b :: rest := by
  simp [applySink]

lemma add_zero_self (A : LimitedRecvStats) : A.add 0 0 = A := rfl

/-- C5: the stats sink is fed exactly by successful non-synthetic receives:
each admitted single receive credits 1 packet and its byte count, each
admitted batch receive credits the kernel's count and the sum of the received
lengths, and failed receives credit nothing; consequently, over any schedule
of successful and failing receives, the bound sink's packet counter grows by
exactly the number of successes and its byte counter by the sum of the
received sizes. -/
theorem stats_conservation :
    (∀ (s : LimitedUdpRecv) (dur buf nr : Nat) (addr : SocketAddr) (tr : Bool),
      (s.limit.is_set = false ∨
        ∃ l' n, s.limit.check_packet dur buf = (l', DatagramLimitResult.Advance n)) →
      (s.poll_recv_from dur buf (PollResult.ok (nr, addr)) tr).fx.statsPackets = 1 ∧
      (s.poll_recv_from dur buf (PollResult.ok (nr, addr)) tr).fx.statsBytes = nr) ∧
    (∀ (s : LimitedUdpRecv) (dur buf : Nat) (e : IoError) (tr : Bool),
      (s.poll_recv_from dur buf (PollResult.err e) tr).fx.statsPackets = 0 ∧
      (s.poll_recv_from dur buf (PollResult.err e) tr).fx.statsBytes = 0) ∧
    (∀ (s : LimitedUdpRecv) (dur buf : Nat) (tr : Bool),
      (s.poll_recv_from dur buf PollResult.pending tr).fx.statsPackets = 0 ∧
      (s.poll_recv_from dur buf PollResult.pending tr).fx.statsBytes = 0) ∧
    (∀ (s : LimitedUdpRecv) (dur buf nr : Nat) (tr : Bool),
      (s.limit.is_set = false ∨
        ∃ l' n, s.limit.check_packet dur buf = (l', DatagramLimitResult.Advance n)) →
      (s.poll_recv dur buf (PollResult.ok nr) tr).fx.statsPackets = 1 ∧
      (s.poll_recv dur buf (PollResult.ok nr) tr).fx.statsBytes = nr) ∧
    (∀ (s : LimitedUdpRecv) (dur : Nat) (bufs lens : List Nat) (tr : Bool),
      (s.limit.is_set = false ∨
        ∃ l' n, s.limit.check_packets dur bufs = (l', DatagramLimitResult.Advance n)) →
      (s.poll_batch_recvmsg dur bufs (PollResult.ok lens) tr).fx.statsPackets =
        lens.length ∧
      (s.poll_batch_recvmsg dur bufs (PollResult.ok lens) tr).fx.statsBytes = lens.sum) ∧
    (∀ (s : LimitedUdpRecv) (dur : Nat) (bufs : List Nat) (e : IoError) (tr : Bool),
      (s.poll_batch_recvmsg dur bufs (PollResult.err e) tr).fx.statsPackets = 0 ∧
      (s.poll_batch_recvmsg dur bufs (PollResult.err e) tr).fx.statsBytes = 0) ∧
    (∀ (sched : List (Nat ⊕ IoError)) (A : LimitedRecvStats) (rest : List LimitedRecvStats),
      ((World.run ⟨LimitedUdpRecv.new 0 0 0 0, A :: rest⟩
          (opsOfSchedule addr0 sched)).sinks.getD 0 ⟨0, 0⟩).packets =
        A.packets + (successSizes sched).length ∧
      ((World.run ⟨LimitedUdpRecv.new 0 0 0 0, A :: rest⟩
          (opsOfSchedule addr0 sched)).sinks.getD 0 ⟨0, 0⟩).bytes =
        A.bytes + (successSizes sched).sum) := by
  refine ⟨?_, ?_, ?_, ?_, ?_, ?_, ?_⟩
  · intro s dur buf nr addr tr h
    cases hb : s.limit.is_set with
    | false => simp [LimitedUdpRecv.poll_recv_from, hb]
    | true =>
      rcases h with h0 | ⟨l', n, hch⟩
      · rw [h0] at hb; exact absurd hb (by decide)
      · simp [LimitedUdpRecv.poll_recv_from, hb, hch]
  · intro s dur buf e tr
    unfold LimitedUdpRecv.poll_recv_from
    split
    · split
      · exact ⟨rfl, rfl⟩
      · split
        · exact ⟨rfl, rfl⟩
        · exact ⟨rfl, rfl⟩
    · exact ⟨rfl, rfl⟩
  · intro s dur buf tr
    unfold LimitedUdpRecv.poll_recv_from
    split
    · split
      · exact ⟨rfl, rfl⟩
      · split
        · exact ⟨rfl, rfl⟩
        · exact ⟨rfl, rfl⟩
    · exact ⟨rfl, rfl⟩
  · intro s dur buf nr tr h
    cases hb : s.limit.is_set with
    | false => simp [LimitedUdpRecv.poll_recv, hb]
    | true =>
      rcases h with h0 | ⟨l', n, hch⟩
      · rw [h0] at hb; exact absurd hb (by decide)
      · simp [LimitedUdpRecv.poll_recv, hb, hch]
  · intro s dur bufs lens tr h
    cases hb : s.limit.is_set with
    | false => simp [LimitedUdpRecv.poll_batch_recvmsg, hb]
    | true =>
      rcases h with h0 | ⟨l', n, hch⟩
      · rw [h0] at hb; exact absurd hb (by decide)
      · simp [LimitedUdpRecv.poll_batch_recvmsg, hb, hch]
  · intro s dur bufs e tr
    unfold LimitedUdpRecv.poll_batch_recvmsg
    split
    · split
      · exact ⟨rfl, rfl⟩
      · split
        · exact ⟨rfl, rfl⟩
        · exact ⟨rfl, rfl⟩
    · exact ⟨rfl, rfl⟩
  · intro sched
    induction sched with
    | nil =>
      intro A rest
      simp [opsOfSchedule, World.run, successSizes]
    | cons x r ih =>
      intro A rest
      cases x with
      | inl nn =>
        have hstep := step_opOk_at (A :: rest) 0 nn 0
        simp only [opsOfSchedule, World.run, List.foldl_cons] at *
        rw [hstep, applySink_head]
        have := ih (A.add 1 nn) rest
        refine ⟨?_, ?_⟩
        · rw [this.1]
          simp [successSizes, LimitedRecvStats.add]
          omega
        · rw [this.2]
          simp [successSizes, LimitedRecvStats.add]
          omega
      | inr e =>
        have hstep := step_opErr_at (A :: rest) 0 0 100 e
        simp only [opsOfSchedule, World.run, List.foldl_cons] at *
        rw [hstep, applySink_head, add_zero_self]
        have := ih A rest
        refine ⟨?_, ?_⟩
        · rw [this.1]
          simp [successSizes]
        · rw [this.2]
          simp [successSizes]

/-- C5 witness: an admitted 40-byte receive credits exactly one packet of 40
bytes to the sink. -/
theorem stats_conservation_witness :
    (LimitedUdpRecv.new 3 2 0 0).limit.check_packet 0 100 =
      ((LimitedUdpRecv.new 3 2 0 0).limit, DatagramLimitResult.Advance 1) ∧
    ((LimitedUdpRecv.new 3 2 0 0).poll_recv_from 0 100
        (PollResult.ok (40, addr0)) false).fx.statsPackets = 1 ∧
    ((LimitedUdpRecv.new 3 2 0 0).poll_recv_from 0 100
        (PollResult.ok (40, addr0)) false).fx.statsBytes = 40 := by
  have hap := stats_conservation.1 (LimitedUdpRecv.new 3 2 0 0) 0 100 40 addr0 false
    (Or.inr ⟨(LimitedUdpRecv.new 3 2 0 0).limit, 1, by decide⟩)
  exact ⟨by decide, hap.1, hap.2⟩

/-- C8: reset_stats(new_sink) rebinds the sink for subsequent receives: with
sinks A (index 0) and B (index 1), three successful receives, a
reset_stats to B and two more successful receives leave A credited with
exactly 3 packets and a+b+c bytes and B with exactly 2 packets and d+e
bytes — nothing double-credited. -/
theorem reset_stats_rebinds (a b c d e : Nat) (A B : LimitedRecvStats) :
    ((World.run ⟨LimitedUdpRecv.new 0 0 0 0, [A, B]⟩
        [opOk 0 a addr0, opOk 0 b addr0, opOk 0 c addr0, Op.resetStats 1,
         opOk 0 d addr0, opOk 0 e addr0]).sinks.getD 0 ⟨0, 0⟩).packets = A.packets + 3 ∧
    ((World.run ⟨LimitedUdpRecv.new 0 0 0 0, [A, B]⟩
        [opOk 0 a addr0, opOk 0 b addr0, opOk 0 c addr0, Op.resetStats 1,
         opOk 0 d addr0, opOk 0 e addr0]).sinks.getD 0 ⟨0, 0⟩).bytes =
      A.bytes + (a + b + c) ∧
    ((World.run ⟨LimitedUdpRecv.new 0 0 0 0, [A, B]⟩
        [opOk 0 a addr0, opOk 0 b addr0, opOk 0 c addr0, Op.resetStats 1,
         opOk 0 d addr0, opOk 0 e addr0]).sinks.getD 0 ⟨0, 0⟩).packets +
      ((World.run ⟨LimitedUdpRecv.new 0 0 0 0, [A, B]⟩
        [opOk 0 a addr0, opOk 0 b addr0, opOk 0 c addr0, Op.resetStats 1,
         opOk 0 d addr0, opOk 0 e addr0]).sinks.getD 1 ⟨0, 0⟩).packets =
      A.packets + B.packets + 5 ∧
    ((World.run ⟨LimitedUdpRecv.new 0 0 0 0, [A, B]⟩
        [opOk 0 a addr0, opOk 0 b addr0, opOk 0 c addr0, Op.resetStats 1,
         opOk 0 d addr0, opOk 0 e addr0]).sinks.getD 1 ⟨0, 0⟩).packets = B.packets + 2 ∧
    ((World.run ⟨LimitedUdpRecv.new 0 0 0 0, [A, B]⟩
        [opOk 0 a addr0, opOk 0 b addr0, opOk 0 c addr0, Op.resetStats 1,
         opOk 0 d addr0, opOk 0 e addr0]).sinks.getD 1 ⟨0, 0⟩).bytes =
      B.bytes + (d + e) := by
  simp [World.run, World.step, opOk, LimitedUdpRecv.poll_recv_from,
    DatagramLimitInfo.is_set, LimitedUdpRecv.new, DatagramLimitInfo.new,
    LimitedUdpRecv.reset_stats, applySink, LimitedRecvStats.add]
  omega

lemma updatePackets_getD_lt :
    ∀ (ps : List UdpCopyPacket) (lens : List Nat) (i : Nat) (d : UdpCopyPacket),
      i < lens.length → i < ps.length →
      (updatePackets ps lens).getD i d =
        { ps.getD i d with offset := 0, length := lens.getD i 0 } := by
  intro ps
  induction ps with
  | nil =>
    intro lens i d h1 h2
    simp at h2
  | cons p ps ih =>
    intro lens i d h1 h2
    cases lens with
    | nil => simp at h1
    | cons len lens' =>
      cases i with
      | zero => simp [updatePackets]
      | succ i' =>
        simp only [updatePackets, List.getD_cons_succ]
        exact ih lens' i' d (by simpa using h1) (by simpa using h2)

lemma updatePackets_getD_ge :
    ∀ (ps : List UdpCopyPacket) (lens : List Nat) (i : Nat) (d : UdpCopyPacket),
      lens.length ≤ i →
      (updatePackets ps lens).getD i d = ps.getD i d := by
  intro ps
  induction ps with
  | nil =>
    intro lens i d _
    cases lens <;> simp [updatePackets]
  | cons p ps ih =>
    intro lens i d h
    cases lens with
    | nil => simp [updatePackets]
    | cons len lens' =>
      cases i with
      | zero => simp at h
      | succ i' =>
        simp only [updatePackets, List.getD_cons_succ]
        exact ih lens' i' d (by simpa using h)

/-- C9: the connected-endpoint adapter reports a header length of 0; its
single-packet receive maps the inner endpoint's n to (0, n), wrapping errors
in RecvFailed and passing pending through; its batch receive forwards the
inner batch result, and on success with filled header lengths `lens` sets
offset := 0 and length := the received header length on each of the first
lens.length slots (leaving every later slot untouched) and returns the
count — with no rate limiting of its own on any path. -/
theorem connect_adapter_forwards :
    DirectUdpConnectRemoteRecv.max_hdr_len = 0 ∧
    (∀ nr, DirectUdpConnectRemoteRecv.poll_recv_packet (PollResult.ok nr) =
      CopyPollResult.ok (0, nr)) ∧
    (∀ e, DirectUdpConnectRemoteRecv.poll_recv_packet (PollResult.err e) =
      CopyPollResult.err (UdpCopyRemoteError.RecvFailed e)) ∧
    (DirectUdpConnectRemoteRecv.poll_recv_packet PollResult.pending =
      CopyPollResult.pending) ∧
    (∀ (packets : List UdpCopyPacket) (lens : List Nat),
      (DirectUdpConnectRemoteRecv.poll_recv_packets packets (PollResult.ok lens)).1 =
        CopyPollResult.ok lens.length ∧
      (∀ i, i < lens.length → i < packets.length →
        ((DirectUdpConnectRemoteRecv.poll_recv_packets packets
            (PollResult.ok lens)).2.getD i ⟨0, 0, 0⟩).offset = 0 ∧
        ((DirectUdpConnectRemoteRecv.poll_recv_packets packets
            (PollResult.ok lens)).2.getD i ⟨0, 0, 0⟩).length = lens.getD i 0 ∧
        ((DirectUdpConnectRemoteRecv.poll_recv_packets packets
            (PollResult.ok lens)).2.getD i ⟨0, 0, 0⟩).bufLen =
          (packets.getD i ⟨0, 0, 0⟩).bufLen) ∧
      (∀ i, lens.length ≤ i →
        (DirectUdpConnectRemoteRecv.poll_recv_packets packets
            (PollResult.ok lens)).2.getD i ⟨0, 0, 0⟩ = packets.getD i ⟨0, 0, 0⟩)) ∧
    (∀ (packets : List UdpCopyPacket) (e : IoError),
      DirectUdpConnectRemoteRecv.poll_recv_packets packets (PollResult.err e) =
        (CopyPollResult.err (UdpCopyRemoteError.RecvFailed e), packets)) ∧
    (∀ (packets : List UdpCopyPacket),
      DirectUdpConnectRemoteRecv.poll_recv_packets packets PollResult.pending =
        (CopyPollResult.pending, packets)) := by
  refine ⟨rfl, fun nr => rfl, fun e => rfl, rfl, ?_, fun packets e => rfl, fun packets => rfl⟩
  intro packets lens
  refine ⟨rfl, ?_, ?_⟩
  · intro i h1 h2
    have hup := updatePackets_getD_lt packets lens i ⟨0, 0, 0⟩ h1 h2
    simp only [DirectUdpConnectRemoteRecv.poll_recv_packets]
    rw [hup]
    exact ⟨rfl, rfl, rfl⟩
  · intro i h
    have hup := updatePackets_getD_ge packets lens i ⟨0, 0, 0⟩ h
    simp only [DirectUdpConnectRemoteRecv.poll_recv_packets]
    rw [hup]

/-- C9 witness: two slots of capacity 100, the endpoint fills one with 33
bytes: slot 0 becomes offset 0 and length 33, slot 1 is untouched, and the
adapter returns count 1. -/
theorem connect_adapter_forwards_witness :
    (DirectUdpConnectRemoteRecv.poll_recv_packets
        [⟨5, 6, 100⟩, ⟨7, 8, 100⟩] (PollResult.ok [33])).1 = CopyPollResult.ok 1 ∧
    ((DirectUdpConnectRemoteRecv.poll_recv_packets
        [⟨5, 6, 100⟩, ⟨7, 8, 100⟩] (PollResult.ok [33])).2.getD 0 ⟨0, 0, 0⟩).offset = 0 ∧
    ((DirectUdpConnectRemoteRecv.poll_recv_packets
        [⟨5, 6, 100⟩, ⟨7, 8, 100⟩] (PollResult.ok [33])).2.getD 0 ⟨0, 0, 0⟩).length = 33 ∧
    (DirectUdpConnectRemoteRecv.poll_recv_packets
        [⟨5, 6, 100⟩, ⟨7, 8, 100⟩] (PollResult.ok [33])).2.getD 1 ⟨0, 0, 0⟩ =
      ⟨7, 8, 100⟩ := by
  have hap := (connect_adapter_forwards.2.2.2.2.1 [⟨5, 6, 100⟩, ⟨7, 8, 100⟩] [33])
  refine ⟨hap.1, ?_, ?_, ?_⟩
  · exact (hap.2.1 0 (by decide) (by decide)).1
  · have := (hap.2.1 0 (by decide) (by decide)).2.1
    rw [this]
    decide
  · have := hap.2.2 1 (by decide)
    rw [this]
    decide

end G3
